import Mathlib

/-!
Verification of the `openevolve` sandboxed execution engine and sampling
orchestrator (`openevolve/sandbox.py`, `openevolve/sampler.py`).

The Python code is shallowly embedded: pure computations become Lean
functions, class-level mutable state becomes explicit state passing, and
external side effects (shell commands issued through `os.system` /
`os.popen`) are recorded in explicit effect traces, with the outside
world's responses (exit codes, probe answers, file contents) supplied by
an environment record.
-/

namespace OpenEvolve

instance {ε α : Type} [DecidableEq ε] [DecidableEq α] : DecidableEq (Except ε α) := fun a b =>
  match a, b with
  | .ok x, .ok y => if h : x = y then .isTrue (by rw [h]) else .isFalse (by simp [h])
  | .error x, .error y => if h : x = y then .isTrue (by rw [h]) else .isFalse (by simp [h])
  | .ok _, .error _ => .isFalse (by simp)
  | .error _, .ok _ => .isFalse (by simp)

/-! ## Decimal rendering of numbers

Models Python's `str(...)` on integers, as used by the f-strings in
`sandbox.py` (`f"{test_id}.pickle"`, `f"output_{test_id}.pickle"`,
`f"test_{test_id}"`) and the concatenation in `sampler.py`
(`str(self.uid) + "_" + str(self.generation_number)`): the usual decimal
rendering with no leading zeros, a leading `-` for negatives. -/

/-- The character of a decimal digit `d < 10` (codepoint `48 + d`). -/
def digitChar (d : Nat) : Char := Char.ofNat (48 + d)

/-- Decimal rendering of a natural number, via `Nat.digits`. -/
def natStr (n : Nat) : String :=
  if n = 0 then "0" else ⟨((Nat.digits 10 n).map digitChar).reverse⟩

/-- Decimal rendering of an integer (Python `str` on `int`). -/
def intStr (i : Int) : String :=
  if i < 0 then "-" ++ natStr i.natAbs else natStr i.toNat

theorem digitChar_toNat {d : Nat} (hd : d < 10) : (digitChar d).toNat = 48 + d := by
  interval_cases d <;> rfl

theorem digitChar_injOn {a b : Nat} (ha : a < 10) (hb : b < 10)
    (h : digitChar a = digitChar b) : a = b := by
  have := congrArg Char.toNat h
  rw [digitChar_toNat ha, digitChar_toNat hb] at this
  omega

theorem digitChar_isDigit {d : Nat} (hd : d < 10) : (digitChar d).isDigit = true := by
  interval_cases d <;> decide

theorem map_digitChar_injOn : ∀ l₁ l₂ : List Nat, (∀ d ∈ l₁, d < 10) → (∀ d ∈ l₂, d < 10) →
    l₁.map digitChar = l₂.map digitChar → l₁ = l₂ := by
  intro l₁
  induction l₁ with
  | nil => intro l₂ _ _ h; cases l₂ <;> simp_all
  | cons a l₁ ih =>
    intro l₂ h₁ h₂ h
    cases l₂ with
    | nil => simp at h
    | cons b l₂ =>
      simp only [List.map_cons, List.cons.injEq] at h
      have hab : a = b := digitChar_injOn (h₁ a (by simp)) (h₂ b (by simp)) h.1
      have : l₁ = l₂ := ih l₂ (fun d hd => h₁ d (by simp [hd])) (fun d hd => h₂ d (by simp [hd])) h.2
      rw [hab, this]

theorem natStr_zero : natStr 0 = "0" := rfl

theorem natStr_data_of_ne_zero {n : Nat} (hn : n ≠ 0) :
    (natStr n).data = ((Nat.digits 10 n).map digitChar).reverse := by
  simp [natStr, hn]

/-- Every character of a decimal rendering is a digit character. -/
theorem natStr_all_isDigit (n : Nat) : ∀ c ∈ (natStr n).data, c.isDigit = true := by
  intro c hc
  by_cases hn : n = 0
  · subst hn; simp only [natStr_zero] at hc
    simp only [show ("0" : String).data = ['0'] from rfl, List.mem_singleton] at hc
    subst hc; decide
  · rw [natStr_data_of_ne_zero hn, List.mem_reverse, List.mem_map] at hc
    obtain ⟨d, hd, rfl⟩ := hc
    exact digitChar_isDigit (Nat.digits_lt_base (by norm_num) hd)

/-- Decimal rendering is injective on naturals. -/
theorem natStr_injective : Function.Injective natStr := by
  intro m n h
  by_cases hm : m = 0 <;> by_cases hn : n = 0
  · omega
  · exfalso
    have hd := congrArg String.data h
    rw [hm, natStr_zero, natStr_data_of_ne_zero hn] at hd
    have : (Nat.digits 10 n).map digitChar = ['0'] := by
      have := congrArg List.reverse hd
      simpa using this.symm
    have hdig : Nat.digits 10 n = [0] := by
      cases hds : Nat.digits 10 n with
      | nil => rw [hds] at this; simp at this
      | cons d t =>
        rw [hds] at this
        simp only [List.map_cons, List.cons.injEq] at this
        have ht : t = [] := by
          cases t with
          | nil => rfl
          | cons _ _ => simp at this
        subst ht
        have hd10 : d < 10 := Nat.digits_lt_base (by norm_num) (by rw [hds]; simp)
        have : d = 0 := digitChar_injOn hd10 (by norm_num) (by simpa using this.1)
        rw [this]
    have := Nat.ofDigits_digits 10 n
    rw [hdig] at this
    simp [Nat.ofDigits] at this
    omega
  · exfalso
    have hd := congrArg String.data h
    rw [hn, natStr_zero, natStr_data_of_ne_zero hm] at hd
    have : (Nat.digits 10 m).map digitChar = ['0'] := by
      have := congrArg List.reverse hd
      simpa using this
    have hdig : Nat.digits 10 m = [0] := by
      cases hds : Nat.digits 10 m with
      | nil => rw [hds] at this; simp at this
      | cons d t =>
        rw [hds] at this
        simp only [List.map_cons, List.cons.injEq] at this
        have ht : t = [] := by
          cases t with
          | nil => rfl
          | cons _ _ => simp at this
        subst ht
        have hd10 : d < 10 := Nat.digits_lt_base (by norm_num) (by rw [hds]; simp)
        have : d = 0 := digitChar_injOn hd10 (by norm_num) (by simpa using this.1)
        rw [this]
    have := Nat.ofDigits_digits 10 m
    rw [hdig] at this
    simp [Nat.ofDigits] at this
    omega
  · have hd := congrArg String.data h
    rw [natStr_data_of_ne_zero hm, natStr_data_of_ne_zero hn] at hd
    have := List.reverse_injective hd
    have := map_digitChar_injOn _ _
      (fun d hdm => Nat.digits_lt_base (by norm_num) hdm)
      (fun d hdn => Nat.digits_lt_base (by norm_num) hdn) this
    have h2 := congrArg (Nat.ofDigits 10) this
    rwa [Nat.ofDigits_digits, Nat.ofDigits_digits] at h2

theorem intStr_data_eq (i : Int) :
    (intStr i).data = (if i < 0 then ['-'] else []) ++ (natStr i.natAbs).data := by
  by_cases h : i < 0
  · simp only [intStr, if_pos h, String.data_append]
  · simp only [intStr, if_neg h, List.nil_append]
    have : i.toNat = i.natAbs := by omega
    rw [this]

/-- Splitting a list at the first element failing `p`, when everything before
it satisfies `p`: `takeWhile` returns exactly the leading block and
`dropWhile` the rest. -/
theorem takeWhile_dropWhile_block (p : Char → Bool) :
    ∀ (l : List Char) (c : Char) (r : List Char), (∀ x ∈ l, p x = true) → p c = false →
      (l ++ c :: r).takeWhile p = l ∧ (l ++ c :: r).dropWhile p = c :: r := by
  intro l
  induction l with
  | nil => intro c r _ hc; simp [List.takeWhile_cons, List.dropWhile_cons, hc]
  | cons a l ih =>
    intro c r hl hc
    have ha : p a = true := hl a (by simp)
    have := ih c r (fun x hx => hl x (by simp [hx])) hc
    simp [List.takeWhile_cons, List.dropWhile_cons, ha, this.1, this.2]

/-! ## In-container path constants

Modelled from the spec: `openevolve/constants.py` is not part of the two
source files in scope; the spec (section 6) fixes "fixed in-container paths
for the main driver script, evaluation entry point, logs root, inputs root,
outputs root, implementations mount point, and interpreter".  The claims do
not depend on the concrete values, only on the roots being fixed absolute
container paths, so representative values are used. -/

/-- Modelled from the spec: the fixed in-container inputs root. -/
def CONTAINER_INPUTS_PATH : String := "/inputs"

/-- Modelled from the spec: the fixed in-container outputs root. -/
def CONTAINER_OUTPUTS_PATH : String := "/outputs"

/-- Modelled from the spec: the fixed in-container logs root. -/
def CONTAINER_LOGS_PATH : String := "/logs"

/-- Modelled from the spec: the fixed image name from `openevolve/constants.py`
(`SANDBOX_IMAGE_NAME`); the claims depend only on it being a fixed name. -/
def SANDBOX_IMAGE_NAME : String := "openevolve-sandbox"

/-! ## Posix path semantics

The path objects in `sandbox.py` (`CONTAINER_INPUTS_PATH / inputs_filename`
etc.) are `pathlib` pure posix paths.  `pathlib` parses a path into
components, discarding empty components (spurious slashes) and single-dot
components, and the `/` join operator replaces the whole path when the
right-hand side is absolute.  `splitSlash`, `pathComponents`, `renderPath`
and `posixJoin` model exactly that (the POSIX leading-double-slash corner
case is not modelled; no claim touches it). -/

/-- Split a character list on `'/'` (like `str.split("/")`). -/
def splitSlash : List Char → List (List Char)
  | [] => [[]]
  | c :: r =>
    if c = '/' then [] :: splitSlash r
    else
      match splitSlash r with
      | [] => [[c]]
      | p :: ps => (c :: p) :: ps

/-- The retained path components: nonempty, not a single dot. -/
def pathComponents (l : List Char) : List (List Char) :=
  (splitSlash l).filter (fun p => decide (p ≠ [] ∧ p ≠ ['.']))

/-- Join components back with `'/'` separators. -/
def joinSep : List (List Char) → List Char
  | [] => []
  | [p] => p
  | p :: ps => p ++ '/' :: joinSep ps

/-- Render a parsed path back to its canonical string. -/
def renderPath (isAbs : Bool) (parts : List (List Char)) : String :=
  if isAbs then ⟨'/' :: joinSep parts⟩
  else if parts = [] then "." else ⟨joinSep parts⟩

/-- Whether a path string is absolute. -/
def startsWithSlash (s : String) : Bool :=
  match s.data with
  | [] => false
  | c :: _ => c = '/'

/-- The `pathlib` `/` operator on pure posix paths: an absolute right-hand
side replaces the base, otherwise components are concatenated; the result is
the canonical (normalized) rendering. -/
def posixJoin (base rhs : String) : String :=
  if startsWithSlash rhs then renderPath true (pathComponents rhs.data)
  else renderPath (startsWithSlash base) (pathComponents base.data ++ pathComponents rhs.data)

theorem splitSlash_ne_nil : ∀ l : List Char, splitSlash l ≠ [] := by
  intro l
  cases l with
  | nil => simp [splitSlash]
  | cons c r =>
    simp only [splitSlash]
    by_cases hc : c = '/'
    · simp [hc]
    · simp only [if_neg hc]
      cases splitSlash r <;> simp

theorem splitSlash_append_sep (x y : List Char) :
    splitSlash (x ++ '/' :: y) = splitSlash x ++ splitSlash y := by
  induction x with
  | nil => simp [splitSlash]
  | cons c x ih =>
    by_cases hc : c = '/'
    · simp [splitSlash, hc, ih]
    · simp only [List.cons_append, splitSlash, if_neg hc]
      rw [show x.append ('/' :: y) = x ++ '/' :: y from rfl, ih]
      cases hx : splitSlash x with
      | nil => exact absurd hx (splitSlash_ne_nil x)
      | cons p ps => simp

theorem splitSlash_no_sep (l : List Char) (h : ∀ c ∈ l, c ≠ '/') : splitSlash l = [l] := by
  induction l with
  | nil => rfl
  | cons c r ih =>
    have hc : c ≠ '/' := h c (by simp)
    simp only [splitSlash, if_neg hc, ih (fun x hx => h x (by simp [hx]))]

/-- Components of a single slash-free, nonempty, non-dot segment. -/
theorem pathComponents_single (l : List Char) (hs : ∀ c ∈ l, c ≠ '/')
    (hne : l ≠ []) (hnd : l ≠ ['.']) : pathComponents l = [l] := by
  simp [pathComponents, splitSlash_no_sep l hs, hne, hnd]

/-! ## Paths computed by `execute` (`sandbox.py` lines 368-375) -/

/-- The paths `execute` computes from `(implementation_id, test_id)`:
`inputs_filepath = CONTAINER_INPUTS_PATH / f"{test_id}.pickle"`,
`outputs_filepath = CONTAINER_OUTPUTS_PATH / f"{implementation_id}/output_{test_id}.pickle"`,
`log_dir = CONTAINER_LOGS_PATH / implementation_id / f"test_{test_id}"`. -/
def executePaths (implementationId : String) (testId : Int) : String × String × String :=
  let inputsFilename := intStr testId ++ ".pickle"
  let outputsFilename := implementationId ++ "/output_" ++ intStr testId ++ ".pickle"
  let inputsFilepath := posixJoin CONTAINER_INPUTS_PATH inputsFilename
  let outputsFilepath := posixJoin CONTAINER_OUTPUTS_PATH outputsFilename
  let logDir := posixJoin (posixJoin CONTAINER_LOGS_PATH implementationId)
    ("test_" ++ intStr testId)
  (inputsFilepath, outputsFilepath, logDir)

theorem natStr_data_ne_nil (n : Nat) : (natStr n).data ≠ [] := by
  by_cases hn : n = 0
  · subst hn; simp [natStr_zero]
  · rw [natStr_data_of_ne_zero hn]
    simp only [ne_eq, List.reverse_eq_nil_iff, List.map_eq_nil_iff]
    exact Nat.digits_ne_nil_iff_ne_zero.mpr hn

theorem intStr_injective : Function.Injective intStr := by
  intro a b h
  have hd := congrArg String.data h
  rw [intStr_data_eq, intStr_data_eq] at hd
  have headDigit : ∀ n : Nat, ∀ c r, (natStr n).data = c :: r → c.isDigit = true := by
    intro n c r hcr
    exact natStr_all_isDigit n c (by rw [hcr]; simp)
  by_cases ha : a < 0 <;> by_cases hb : b < 0
  · simp only [if_pos ha, if_pos hb, List.cons_append, List.nil_append,
      List.cons.injEq, true_and] at hd
    have : natStr a.natAbs = natStr b.natAbs := String.ext hd
    have := natStr_injective this
    omega
  · exfalso
    simp only [if_pos ha, if_neg hb, List.cons_append, List.nil_append] at hd
    cases hnb : (natStr b.natAbs).data with
    | nil => exact natStr_data_ne_nil _ hnb
    | cons c r =>
      rw [hnb] at hd
      have : c.isDigit = true := headDigit _ c r hnb
      have hc : c = '-' := by simp only [List.cons.injEq] at hd; exact hd.1.symm
      rw [hc] at this
      exact absurd this (by decide)
  · exfalso
    simp only [if_neg ha, if_pos hb, List.cons_append, List.nil_append] at hd
    cases hna : (natStr a.natAbs).data with
    | nil => exact natStr_data_ne_nil _ hna
    | cons c r =>
      rw [hna] at hd
      have : c.isDigit = true := headDigit _ c r hna
      have hc : c = '-' := by simp only [List.cons.injEq] at hd; exact hd.1
      rw [hc] at this
      exact absurd this (by decide)
  · simp only [if_neg ha, if_neg hb, List.nil_append] at hd
    have : natStr a.natAbs = natStr b.natAbs := String.ext hd
    have := natStr_injective this
    omega

theorem intStr_no_slash (i : Int) : ∀ c ∈ (intStr i).data, c ≠ '/' := by
  intro c hc
  rw [intStr_data_eq, List.mem_append] at hc
  rcases hc with hc | hc
  · rcases lt_or_ge i 0 with h | h
    · rw [if_pos h] at hc
      simp only [List.mem_singleton] at hc
      subst hc; decide
    · rw [if_neg (not_lt.mpr h)] at hc
      simp at hc
  · have := natStr_all_isDigit i.natAbs c hc
    intro hcc
    rw [hcc] at this
    exact absurd this (by decide)

/-- The output artifact's file name inside the implementation's directory:
the characters of `"output_" ++ str(test_id) ++ ".pickle"`. -/
def outFname (t : Int) : List Char :=
  "output_".data ++ (intStr t).data ++ ".pickle".data

theorem outFname_no_slash (t : Int) : ∀ c ∈ outFname t, c ≠ '/' := by
  have h1 : ∀ x ∈ "output_".data, x ≠ '/' := by decide
  have h2 : ∀ x ∈ ".pickle".data, x ≠ '/' := by decide
  intro c hc
  simp only [outFname, List.mem_append] at hc
  rcases hc with (hc | hc) | hc
  · exact h1 c hc
  · exact intStr_no_slash t c hc
  · exact h2 c hc

theorem outFname_ne_nil (t : Int) : outFname t ≠ [] := by
  simp [outFname]

theorem outFname_ne_dot (t : Int) : outFname t ≠ ['.'] := by
  simp only [outFname, ne_eq]
  intro h
  have := congrArg List.length h
  simp only [List.length_append, List.length_singleton] at this
  have hn : 0 < (intStr t).data.length := by
    cases hd : (intStr t).data with
    | nil =>
      exfalso
      rw [intStr_data_eq] at hd
      rcases List.append_eq_nil.mp hd with ⟨_, h2⟩
      exact natStr_data_ne_nil _ h2
    | cons _ _ => simp
  simp only [List.length_cons, List.length_nil] at this
  omega

/-- Normal form of the output path for a single-component implementation id:
no `pathlib` collapsing happens, and the path is literally
`"/outputs/" ++ implementationId ++ "/" ++ outFname testId`. -/
theorem executePaths_output_normal (i : String) (t : Int)
    (hs : ∀ c ∈ i.data, c ≠ '/') (hne : i ≠ "") (hnd : i ≠ ".") :
    (executePaths i t).2.1 = ⟨"/outputs/".data ++ (i.data ++ '/' :: outFname t)⟩ := by
  have hidata : i.data ≠ [] := fun h => hne (String.ext (by simpa using h))
  have hidot : i.data ≠ ['.'] := fun h => hnd (String.ext (by simpa using h))
  have hrhs : (i ++ "/output_" ++ intStr t ++ ".pickle").data = i.data ++ '/' :: outFname t := by
    simp only [String.data_append, outFname, List.append_assoc]
    rfl
  have habs : startsWithSlash (i ++ "/output_" ++ intStr t ++ ".pickle") = false := by
    unfold startsWithSlash
    rw [hrhs]
    cases hi : i.data with
    | nil => exact absurd hi hidata
    | cons c r =>
      simp only [List.cons_append]
      have : c ≠ '/' := hs c (by rw [hi]; simp)
      simp [this]
  have hcomps : pathComponents (i ++ "/output_" ++ intStr t ++ ".pickle").data
      = [i.data, outFname t] := by
    rw [hrhs]
    unfold pathComponents
    rw [splitSlash_append_sep, splitSlash_no_sep i.data hs,
      splitSlash_no_sep (outFname t) (outFname_no_slash t)]
    simp [hidata, hidot, outFname_ne_nil t, outFname_ne_dot t]
  show posixJoin CONTAINER_OUTPUTS_PATH (i ++ "/output_" ++ intStr t ++ ".pickle") = _
  unfold posixJoin
  rw [habs, hcomps]
  rw [show pathComponents (CONTAINER_OUTPUTS_PATH : String).data = ["outputs".data] from by decide]
  rw [show startsWithSlash CONTAINER_OUTPUTS_PATH = true from by decide]
  simp only [Bool.false_eq_true, if_false, if_true, List.cons_append, List.nil_append, renderPath]
  congr 1

/-- Distinct `(implementationId, testId)` pairs with single-component
implementation ids (no slash, nonempty, not `"."`) give distinct output
paths. -/
theorem executePaths_output_injOn (i₁ i₂ : String) (t₁ t₂ : Int)
    (hs₁ : ∀ c ∈ i₁.data, c ≠ '/') (hne₁ : i₁ ≠ "") (hnd₁ : i₁ ≠ ".")
    (hs₂ : ∀ c ∈ i₂.data, c ≠ '/') (hne₂ : i₂ ≠ "") (hnd₂ : i₂ ≠ ".")
    (h : (executePaths i₁ t₁).2.1 = (executePaths i₂ t₂).2.1) : i₁ = i₂ ∧ t₁ = t₂ := by
  rw [executePaths_output_normal i₁ t₁ hs₁ hne₁ hnd₁,
    executePaths_output_normal i₂ t₂ hs₂ hne₂ hnd₂] at h
  have hdata := congrArg String.data h
  simp only [show ∀ l : List Char, (String.mk l).data = l from fun _ => rfl] at hdata
  have hcore : i₁.data ++ '/' :: outFname t₁ = i₂.data ++ '/' :: outFname t₂ :=
    List.append_cancel_left hdata
  have hb₁ := takeWhile_dropWhile_block (fun c => decide (c ≠ '/')) i₁.data '/' (outFname t₁)
    (fun x hx => by simp [hs₁ x hx]) (by decide)
  have hb₂ := takeWhile_dropWhile_block (fun c => decide (c ≠ '/')) i₂.data '/' (outFname t₂)
    (fun x hx => by simp [hs₂ x hx]) (by decide)
  have hids : i₁.data = i₂.data := by
    have := congrArg (List.takeWhile (fun c => decide (c ≠ '/'))) hcore
    rwa [hb₁.1, hb₂.1] at this
  have hrest : '/' :: outFname t₁ = '/' :: outFname t₂ := by
    have := congrArg (List.dropWhile (fun c => decide (c ≠ '/'))) hcore
    rwa [hb₁.2, hb₂.2] at this
  refine ⟨String.ext hids, ?_⟩
  have hfn : outFname t₁ = outFname t₂ := by
    simpa using hrest
  simp only [outFname] at hfn
  have h1 : (intStr t₁).data ++ ".pickle".data = (intStr t₂).data ++ ".pickle".data := by
    have := List.append_cancel_left (List.append_assoc _ _ _ ▸
      (List.append_assoc _ _ _ ▸ hfn : "output_".data ++ ((intStr t₁).data ++ ".pickle".data)
        = ("output_".data ++ (intStr t₂).data) ++ ".pickle".data))
    exact this
  have h2 : (intStr t₁).data = (intStr t₂).data := List.append_cancel_right h1
  exact intStr_injective (String.ext h2)

/-! ## Sandbox lifecycle (`sandbox.py`)

Class-level mutable state of `DummySandbox` / `ContainerSandbox`
(`DummySandbox.sandboxes`, `ContainerSandbox.engine`) is threaded
explicitly as `ClassState`.  The outside world (availability of engines,
existence of the container, exit codes of the shell commands the code
issues) is an `Env` record: each `os.system` / `os.popen` call reads its
answer there and is recorded in an effect trace. -/

/-- The two container engines (`ContainerEngine` StrEnum, lines 48-51). -/
inductive ContainerEngine
  | podman
  | docker
  deriving DecidableEq, Repr

/-- Default engine (`DEFAULT_CONTAINER_ENGINE = ContainerEngine.DOCKER`, line 53). -/
def DEFAULT_CONTAINER_ENGINE : ContainerEngine := .docker

/-- Process-wide class-level state: the `DummySandbox.sandboxes` counter
(line 37) and the pinned `ContainerSandbox.engine` (line 63). -/
structure ClassState where
  sandboxes : Nat
  engine : ContainerEngine
  deriving DecidableEq, Repr

/-- Class state at interpreter start: counter `0`, default engine. -/
def processStart : ClassState := ⟨0, DEFAULT_CONTAINER_ENGINE⟩

/-- The outside world's answers to the probes and commands the sandbox
issues.  Exit code `0` means success. -/
structure Env where
  hasDocker : Bool
  hasPodman : Bool
  containerExists : Bool
  buildExit : Nat
  createExit : Nat
  startExit : Nat
  removeExit : Nat
  deriving DecidableEq, Repr

/-- One observable shell interaction. -/
inductive Effect
  | probeEngine (e : ContainerEngine)
  | probeContainerExists
  | cmdRemove (exit : Nat)
  | cmdBuild (exit : Nat)
  | cmdCreate (exit : Nat)
  | cmdStart (exit : Nat)
  deriving DecidableEq, Repr

/-- The provisioning side effects named by the spec: container remove,
image build, container create, container start. -/
def isProvisioningStep : Effect → Bool
  | .cmdRemove _ => true
  | .cmdBuild _ => true
  | .cmdCreate _ => true
  | .cmdStart _ => true
  | _ => false

/-- Exceptions the constructor and class methods can raise. -/
inductive InitError
  | setupNotShellScript
  | evalNotPythonFile
  | evalFileNotFound
  | noEngineFound
  | buildFailed (msg : String)
  deriving DecidableEq, Repr

/-- The `ValueError`s of input validation: the spec's ConfigurationError. -/
def isConfigurationError : InitError → Bool
  | .setupNotShellScript => true
  | .evalNotPythonFile => true
  | _ => false

/-- Errors raised by the validation phase of `__init__` (lines 93-111),
before any provisioning: the two `ValueError`s and the `FileNotFoundError`. -/
def isValidationError : InitError → Bool
  | .setupNotShellScript => true
  | .evalNotPythonFile => true
  | .evalFileNotFound => true
  | _ => false

/-- What the code observes about a host path (results of the
`pathlib` queries `is_file()`, `suffix`, `exists()`). -/
structure PathInfo where
  isFile : Bool
  suffix : String
  pathExists : Bool
  deriving DecidableEq, Repr

/-- Constructor arguments that matter to the claims: the observations on
`project_root / eval_relpath`, on `project_root / setup_relpath` when a
setup path is given, and the `force_rebuild_container` flag. -/
structure InitArgs where
  evalInfo : PathInfo
  setupInfo : Option PathInfo
  forceRebuild : Bool
  deriving DecidableEq, Repr

/-- Engine probe `has_engine` (lines 135-139): runs `engine --version`
and reports a zero exit status. -/
def hasEngine (env : Env) : ContainerEngine → Bool
  | .docker => env.hasDocker
  | .podman => env.hasPodman

/-- Engine selection `select_engine` (lines 153-164): probe docker, then
podman; pin the found engine via `use_engine` (line 145); raise when
neither answers.  The pinned `cls.engine` is never consulted. -/
def selectEngine (env : Env) (st : ClassState) :
    Except InitError ContainerEngine × ClassState × List Effect :=
  if hasEngine env .docker then
    (.ok .docker, { st with engine := .docker }, [.probeEngine .docker])
  else if hasEngine env .podman then
    (.ok .podman, { st with engine := .podman },
      [.probeEngine .docker, .probeEngine .podman])
  else
    (.error .noEngineFound, st, [.probeEngine .docker, .probeEngine .podman])

/-- The message of the `RuntimeError` raised on a failed build (lines 222-226). -/
def buildErrorMessage : String :=
  "Failed to build the container image " ++ SANDBOX_IMAGE_NAME ++
    ". Please check the Dockerfile and the build context."

/-- Image build `build_image` (lines 166-226): select the engine, issue the
build command, and raise a `RuntimeError` naming the image exactly when the
build command exits non-zero. -/
def buildImage (env : Env) (st : ClassState) :
    Except InitError Unit × ClassState × List Effect :=
  match selectEngine env st with
  | (.error e, st', effs) => (.error e, st', effs)
  | (.ok _, st', effs) =>
    if env.buildExit ≠ 0 then
      (.error (.buildFailed buildErrorMessage), st', effs ++ [.cmdBuild env.buildExit])
    else
      (.ok (), st', effs ++ [.cmdBuild env.buildExit])

/-- Container creation `create_container` (lines 228-255): issues the create
command and discards its exit status — never raises. -/
def createContainer (env : Env) : Except InitError Unit × List Effect :=
  (.ok (), [.cmdCreate env.createExit])

/-- Container start `start_container` (lines 336-348): issues the start
command and discards its exit status — never raises. -/
def startContainer (env : Env) : Except InitError Unit × List Effect :=
  (.ok (), [.cmdStart env.startExit])

/-- Container removal `remove_container` (lines 324-334): probes
`container_exists` and, when it holds, issues `rm -f`, discarding its exit
status — never raises. -/
def removeContainer (env : Env) : Except InitError Unit × List Effect :=
  if env.containerExists then (.ok (), [.probeContainerExists, .cmdRemove env.removeExit])
  else (.ok (), [.probeContainerExists])

/-- Validation of the evaluation entry point (lines 102-111): it must be a
regular file with suffix `.py`, then it must exist. -/
def validateEval (e : PathInfo) : Except InitError Unit :=
  if ¬ e.isFile ∨ e.suffix ≠ ".py" then .error .evalNotPythonFile
  else if ¬ e.pathExists then .error .evalFileNotFound
  else .ok ()

/-- Input validation of `__init__` (lines 93-111): the optional setup script
must be a shell-script file, then the evaluation entry point is checked. -/
def validateArgs (a : InitArgs) : Except InitError Unit :=
  match a.setupInfo with
  | some si =>
    if ¬ si.isFile ∨ si.suffix ≠ ".sh" then .error .setupNotShellScript
    else validateEval a.evalInfo
  | none => validateEval a.evalInfo

/-- The rebuild branch of the provisioning tail (lines 119-130 followed by
line 133): remove any stale container, build the image, create the
container, start it; a failed build propagates.  `condEffs` carries the
probe of the guarding `container_exists()` call when it ran. -/
def provisionFull (env : Env) (st : ClassState) (condEffs : List Effect) :
    Except InitError Unit × ClassState × List Effect :=
  match removeContainer env with
  | (_, remEffs) =>
    match buildImage env st with
    | (.error e, st', bEffs) => (.error e, st', condEffs ++ remEffs ++ bEffs)
    | (.ok (), st', bEffs) =>
      match createContainer env with
      | (_, cEffs) =>
        match startContainer env with
        | (_, sEffs) =>
          (.ok (), st', condEffs ++ remEffs ++ bEffs ++ cEffs ++ sEffs)

/-- The provisioning tail of `__init__` (lines 116-133), reached only by
the instance with identifier 0: `if force_rebuild_container or not
self.container_exists()` (the probe runs only when the flag is false,
short-circuit `or`) remove, build and create; in every case start the
container. -/
def provision (env : Env) (st : ClassState) (force : Bool) :
    Except InitError Unit × ClassState × List Effect :=
  match force, env.containerExists with
  | true, _ => provisionFull env st []
  | false, false => provisionFull env st [.probeContainerExists]
  | false, true =>
    match startContainer env with
    | (_, sEffs) => (.ok (), st, [.probeContainerExists] ++ sEffs)

/-- `ContainerSandbox.__init__` (lines 65-133): `super().__init__()` first
consumes the next identifier from the class counter (`register_sandbox`,
lines 39-46), then validation runs, then every instance with a nonzero
identifier returns, and only the identifier-0 instance provisions.  Returns
the assigned identifier (or the raised exception), the updated class state
and the effect trace. -/
def containerSandboxInit (env : Env) (st : ClassState) (a : InitArgs) :
    Except InitError Nat × ClassState × List Effect :=
  let sandboxId := st.sandboxes
  let st1 : ClassState := { st with sandboxes := st.sandboxes + 1 }
  match validateArgs a with
  | .error e => (.error e, st1, [])
  | .ok () =>
    if sandboxId ≠ 0 then (.ok sandboxId, st1, [])
    else
      match provision env st1 a.forceRebuild with
      | (.error e, st2, effs) => (.error e, st2, effs)
      | (.ok (), st2, effs) => (.ok sandboxId, st2, effs)

/-- One constructed (or attempted) sandbox instance in a trace. -/
structure InitRecord where
  assignedId : Nat
  outcome : Except InitError Nat
  effects : List Effect
  deriving Repr, DecidableEq

/-- A sequence of sandbox instantiations within one process. -/
def initTrace (env : Env) : List InitArgs → ClassState → List InitRecord × ClassState
  | [], st => ([], st)
  | a :: rest, st =>
    let r := containerSandboxInit env st a
    let tl := initTrace env rest r.2.1
    (⟨st.sandboxes, r.1, r.2.2⟩ :: tl.1, tl.2)

/-! ## Test-case upload (`upload_test_cases`, lines 257-298)

The body stages each test case into a fresh temporary directory (the
`cloudpickle` serialization of a case may raise), then issues one
`engine cp` command whose exit status `os.system` never raises on.  The
`except` clause logs and re-raises; the `finally` clause removes the
temporary directory on every path. -/

/-- The staging loop (lines 271-282): serialize the cases in order; the
first failure aborts the loop and propagates. -/
def stageCases {α ε : Type} (serialize : α → Except ε Unit) : List α → Except ε Unit
  | [] => .ok ()
  | c :: rest =>
    match serialize c with
    | .error e => .error e
    | .ok () => stageCases serialize rest

/-- Everything observable about one `upload_test_cases` call. -/
structure UploadOutcome (ε : Type) where
  result : Except ε Unit
  tempDirRemoved : Bool
  loggedError : Option ε
  copyCmdIssued : Bool

/-- `upload_test_cases`: `mkdtemp`, `try` staging plus the copy command,
`except` log-and-re-raise, `finally` remove the temporary directory. -/
def uploadTestCases {α ε : Type} (serialize : α → Except ε Unit) (cases : List α) :
    UploadOutcome ε :=
  match stageCases serialize cases with
  | .error e =>
    { result := .error e, tempDirRemoved := true, loggedError := some e,
      copyCmdIssued := false }
  | .ok () =>
    { result := .ok (), tempDirRemoved := true, loggedError := none,
      copyCmdIssued := true }

/-! ## Result transfer (`run`, lines 418-456)

`run` executes, creates a host temporary file (`NamedTemporaryFile`, which
always creates the file, empty), issues an unchecked `engine cp` out of the
container, and hands the resulting host file to `pickle.load`.  No error is
caught: the deserializer's exceptions reach the caller unchanged.  The
temporary file is deleted only after a successful load. -/

/-- The deserializer's exceptions: `pickle.load` on an empty stream raises
`EOFError` (the spec's ResultUnavailableError — the copy produced no
output), on a present but malformed stream an `UnpicklingError` (the
spec's CorruptResultError). -/
inductive PickleError
  | eofError
  | unpicklingError
  deriving DecidableEq, Repr

/-- Modelled behaviour of the external `cloudpickle`/`pickle` `load`: an
empty input raises `EOFError`; a nonempty input that the caller-supplied
`decode` cannot parse raises `UnpicklingError`; otherwise the value. -/
def pickleLoad {β : Type} (decode : List Nat → Option β) (bytes : List Nat) :
    Except PickleError β :=
  if bytes = [] then .error .eofError
  else
    match decode bytes with
    | none => .error .unpicklingError
    | some v => .ok v

/-- One observable step of `run`. -/
inductive RunEffect
  | cmdMkdirLogs
  | cmdExec (exit : Nat)
  | cmdCp (exit : Nat)
  | removeTempFile
  deriving DecidableEq, Repr

/-- The outside world of one `run` call: the exec exit code, the copy exit
code, and the bytes found in the host temporary file after the copy attempt
(empty when the copy produced nothing — the file was created empty by
`NamedTemporaryFile` and an unchecked failed `cp` leaves it so). -/
structure RunEnv where
  execExit : Nat
  cpExit : Nat
  copiedBytes : List Nat
  deriving DecidableEq, Repr

/-- `execute` (lines 350-416): compute the three paths, create the log
directory, run the in-container command; returns the output path and the
shell exit status. -/
def execute (env : RunEnv) (implementationId : String) (testId : Int) :
    (String × Nat) × List RunEffect :=
  (((executePaths implementationId testId).2.1, env.execExit),
    [.cmdMkdirLogs, .cmdExec env.execExit])

/-- `run` (lines 418-456): execute, copy the output artifact to the host
temporary file, deserialize it, delete the temporary file on success; every
deserialization error propagates to the caller unchanged. -/
def run {β : Type} (decode : List Nat → Option β) (env : RunEnv)
    (implementationId : String) (testId : Int) :
    Except PickleError β × List RunEffect :=
  match execute env implementationId testId with
  | (_, execEffs) =>
    match pickleLoad decode env.copiedBytes with
    | .error e => (.error e, execEffs ++ [.cmdCp env.cpExit])
    | .ok v => (.ok v, execEffs ++ [.cmdCp env.cpExit, .removeTempFile])

/-! ## Sampling orchestrator (`sampler.py`, lines 113-155)

`Sampler.sample` fetches a prompt and a batch of candidates (both from
external collaborators — they are parameters here), then dispatches each
candidate: compute `curr_id = str(uid) + "_" + str(generation_number)`,
increment the counter, pick an evaluator at random and call its `analyse`.
The random pick and the evaluator's behaviour are abstracted into one
oracle `analyse : candidate → run id → Except`; the loop has no exception
handling, so the first raising `analyse` aborts it.  After the loop the
code divides by `len(eval_times)`, raising `ZeroDivisionError` on an empty
batch. -/

/-- A Run Identifier: `str(uid) + "_" + str(generation_number)` (line 146). -/
def mkRunId (uid : Int) (generation : Nat) : String :=
  intStr uid ++ "_" ++ natStr generation

/-- Errors escaping one `sample()` call. -/
inductive SampleError (ε : Type)
  | analyseError (e : ε)
  | zeroDivisionError
  deriving Repr, DecidableEq

/-- The dispatch loop of `sample` (lines 145-152): returns the outcome, the
final generation counter, and the run identifiers dispatched, in order. -/
def dispatchSamples {α ε : Type} (analyse : α → String → Except ε Unit) (uid : Int) :
    List α → Nat → Except ε Unit × Nat × List String
  | [], g => (.ok (), g, [])
  | s :: rest, g =>
    let currId := mkRunId uid g
    match analyse s currId with
    | .error e => (.error e, g + 1, [currId])
    | .ok () =>
      match dispatchSamples analyse uid rest (g + 1) with
      | (r, g', ids) => (r, g', currId :: ids)

/-- One `sample()` call (lines 129-155) on a batch already drawn from the
model client: dispatch every candidate, then compute the average
evaluation time (a division that raises `ZeroDivisionError` on an empty
batch). -/
def sample {α ε : Type} (analyse : α → String → Except ε Unit) (uid : Int)
    (samples : List α) (g : Nat) : Except (SampleError ε) Unit × Nat × List String :=
  match dispatchSamples analyse uid samples g with
  | (.error e, g', ids) => (.error (.analyseError e), g', ids)
  | (.ok (), g', ids) =>
    if samples.isEmpty then (.error .zeroDivisionError, g', ids)
    else (.ok (), g', ids)

/-- N consecutive `sample()` calls on one `Sampler` instance, one batch per
call, threading `generation_number`; collects outcomes and all dispatched
run identifiers in order. -/
def sampleSeq {α ε : Type} (analyse : α → String → Except ε Unit) (uid : Int) :
    List (List α) → Nat → List (Except (SampleError ε) Unit) × Nat × List String
  | [], g => ([], g, [])
  | batch :: rest, g =>
    match sample analyse uid batch g with
    | (r, g', ids) =>
      match sampleSeq analyse uid rest g' with
      | (rs, g'', ids') => (r :: rs, g'', ids ++ ids')

/-! ## Lifecycle lemmas -/

theorem selectEngine_sandboxes (env : Env) (st : ClassState) :
    (selectEngine env st).2.1.sandboxes = st.sandboxes := by
  unfold selectEngine
  split
  · rfl
  · split <;> rfl

theorem buildImage_sandboxes (env : Env) (st : ClassState) :
    (buildImage env st).2.1.sandboxes = st.sandboxes := by
  unfold buildImage
  cases hsel : selectEngine env st with
  | mk r rest =>
    have := selectEngine_sandboxes env st
    rw [hsel] at this
    cases r with
    | error e => simpa using this
    | ok eng =>
      simp only
      split <;> simpa using this

theorem provisionFull_sandboxes (env : Env) (st : ClassState) (condEffs : List Effect) :
    (provisionFull env st condEffs).2.1.sandboxes = st.sandboxes := by
  unfold provisionFull
  cases hrem : removeContainer env with
  | mk r remEffs =>
    cases hb : buildImage env st with
    | mk br brest =>
      have := buildImage_sandboxes env st
      rw [hb] at this
      cases br with
      | error e => simpa using this
      | ok u => cases u; simpa using this

theorem provision_sandboxes (env : Env) (st : ClassState) (force : Bool) :
    (provision env st force).2.1.sandboxes = st.sandboxes := by
  cases force <;> cases hce : env.containerExists <;>
    simp [provision, hce, provisionFull_sandboxes]

theorem containerSandboxInit_sandboxes (env : Env) (st : ClassState) (a : InitArgs) :
    (containerSandboxInit env st a).2.1.sandboxes = st.sandboxes + 1 := by
  unfold containerSandboxInit
  cases validateArgs a with
  | error e => rfl
  | ok u =>
    cases u
    simp only
    split
    · rfl
    · cases hp : provision env { st with sandboxes := st.sandboxes + 1 } a.forceRebuild with
      | mk pr prest =>
        have := provision_sandboxes env { st with sandboxes := st.sandboxes + 1 } a.forceRebuild
        rw [hp] at this
        cases pr with
        | error e => simpa using this
        | ok u => cases u; simpa using this

theorem containerSandboxInit_effects_of_nonzero (env : Env) (st : ClassState) (a : InitArgs)
    (h : st.sandboxes ≠ 0) : (containerSandboxInit env st a).2.2 = [] := by
  unfold containerSandboxInit
  cases validateArgs a with
  | error e => rfl
  | ok u => cases u; simp [h]

theorem containerSandboxInit_effects_of_validation_error (env : Env) (st : ClassState)
    (a : InitArgs) (e : InitError) (h : validateArgs a = .error e) :
    (containerSandboxInit env st a).2.2 = [] ∧ (containerSandboxInit env st a).1 = .error e := by
  unfold containerSandboxInit
  rw [h]
  exact ⟨rfl, rfl⟩

theorem selectEngine_error_eq (env : Env) (st : ClassState) (e : InitError)
    (h : (selectEngine env st).1 = .error e) : e = .noEngineFound := by
  unfold selectEngine at h
  by_cases hd : hasEngine env .docker
  · simp [hd] at h
  · by_cases hp : hasEngine env .podman
    · simp [hd, hp] at h
    · simp [hd, hp] at h
      exact h.symm

theorem buildImage_error_not_validation (env : Env) (st : ClassState) (e : InitError)
    (h : (buildImage env st).1 = .error e) : isValidationError e = false := by
  unfold buildImage at h
  cases hsel : selectEngine env st with
  | mk sr srest =>
    rw [hsel] at h
    cases sr with
    | error se =>
      simp only [Except.error.injEq] at h
      have : se = .noEngineFound := selectEngine_error_eq env st se (by rw [hsel])
      rw [← h, this]
      rfl
    | ok eng =>
      simp only at h
      split at h
      · simp only [Except.error.injEq] at h
        rw [← h]
        rfl
      · simp at h

theorem provisionFull_error_not_validation (env : Env) (st : ClassState)
    (condEffs : List Effect) (e : InitError)
    (h : (provisionFull env st condEffs).1 = .error e) : isValidationError e = false := by
  unfold provisionFull at h
  cases hrem : removeContainer env with
  | mk r remEffs =>
    rw [hrem] at h
    cases hb : buildImage env st with
    | mk br brest =>
      rw [hb] at h
      cases br with
      | error e' =>
        simp only [Except.error.injEq] at h
        rw [← h]
        exact buildImage_error_not_validation env st e' (by rw [hb])
      | ok u =>
        cases u
        simp only at h
        exact absurd h (by simp)

theorem provision_error_not_validation (env : Env) (st : ClassState) (force : Bool)
    (e : InitError) (h : (provision env st force).1 = .error e) :
    isValidationError e = false := by
  cases force <;> cases hce : env.containerExists <;> simp only [provision, hce] at h <;>
    first
      | exact provisionFull_error_not_validation env st _ e h
      | simp at h

/-- Validation errors surface only from the validation phase. -/
theorem containerSandboxInit_validation_source (env : Env) (st : ClassState) (a : InitArgs)
    (e : InitError) (hout : (containerSandboxInit env st a).1 = .error e)
    (hval : isValidationError e = true) : validateArgs a = .error e := by
  unfold containerSandboxInit at hout
  cases hv : validateArgs a with
  | error e' =>
    rw [hv] at hout
    simp only [Except.error.injEq] at hout
    rw [hout]
  | ok u =>
    cases u
    rw [hv] at hout
    exfalso
    simp only at hout
    split at hout
    · simp at hout
    · cases hp : provision env { st with sandboxes := st.sandboxes + 1 } a.forceRebuild with
      | mk pr prest =>
        rw [hp] at hout
        cases pr with
        | error pe =>
          simp only [Except.error.injEq] at hout
          have : (provision env { st with sandboxes := st.sandboxes + 1 } a.forceRebuild).1
              = .error pe := by rw [hp]
          have := provision_error_not_validation _ _ _ _ this
          rw [hout] at this
          rw [this] at hval
          exact Bool.false_ne_true hval
        | ok u => cases u; simp at hout

/-- In any instantiation trace, every record's assigned identifier is at
least the starting counter, and a nonzero identifier comes with an empty
effect trace. -/
theorem initTrace_ids_effects (env : Env) : ∀ (args : List InitArgs) (st : ClassState),
    ∀ rec ∈ (initTrace env args st).1,
      st.sandboxes ≤ rec.assignedId ∧ (rec.assignedId ≠ 0 → rec.effects = []) := by
  intro args
  induction args with
  | nil => intro st rec h; simp [initTrace] at h
  | cons a rest ih =>
    intro st rec h
    simp only [initTrace, List.mem_cons] at h
    rcases h with h | h
    · subst h
      refine ⟨le_refl _, fun hnz => ?_⟩
      exact containerSandboxInit_effects_of_nonzero env st a hnz
    · have hcount := containerSandboxInit_sandboxes env st a
      have htail := ih (containerSandboxInit env st a).2.1 rec h
      exact ⟨by omega, htail.2⟩

/-! ## Sampler lemmas -/

theorem mkRunId_injective (uid : Int) : Function.Injective (mkRunId uid) := by
  intro g₁ g₂ h
  have hd := congrArg String.data h
  simp only [mkRunId, String.data_append] at hd
  have := List.append_cancel_left hd
  exact natStr_injective (String.ext this)

theorem dispatchSamples_all_ok {α ε : Type} (analyse : α → String → Except ε Unit) (uid : Int)
    (hok : ∀ s id, analyse s id = .ok ()) :
    ∀ (samples : List α) (g : Nat), dispatchSamples analyse uid samples g =
      (.ok (), g + samples.length, (List.range' g samples.length).map (mkRunId uid)) := by
  intro samples
  induction samples with
  | nil => intro g; simp [dispatchSamples]
  | cons s rest ih =>
    intro g
    simp only [dispatchSamples, hok s (mkRunId uid g)]
    rw [ih (g + 1)]
    simp only [Prod.mk.injEq, List.length_cons]
    refine ⟨trivial, by omega, ?_⟩
    rw [show List.range' g (rest.length + 1) = g :: List.range' (g + 1) rest.length from rfl]
    simp

theorem sample_all_ok {α ε : Type} (analyse : α → String → Except ε Unit) (uid : Int)
    (hok : ∀ s id, analyse s id = .ok ()) (samples : List α) (g : Nat)
    (hne : samples ≠ []) :
    sample analyse uid samples g =
      (.ok (), g + samples.length, (List.range' g samples.length).map (mkRunId uid)) := by
  unfold sample
  rw [dispatchSamples_all_ok analyse uid hok samples g]
  simp [List.isEmpty_iff, hne]

theorem sampleSeq_all_ok {α ε : Type} (analyse : α → String → Except ε Unit) (uid : Int)
    (hok : ∀ s id, analyse s id = .ok ()) :
    ∀ (batches : List (List α)) (g : Nat), (∀ b ∈ batches, b ≠ []) →
      sampleSeq analyse uid batches g =
        (List.replicate batches.length (.ok ()), g + (batches.map List.length).sum,
          (List.range' g ((batches.map List.length).sum)).map (mkRunId uid)) := by
  intro batches
  induction batches with
  | nil => intro g _; simp [sampleSeq]
  | cons b rest ih =>
    intro g hne
    simp only [sampleSeq]
    rw [sample_all_ok analyse uid hok b g (hne b (by simp))]
    rw [ih (g + b.length) (fun x hx => hne x (by simp [hx]))]
    simp only [List.map_cons, List.sum_cons, List.length_cons, Prod.mk.injEq]
    refine ⟨by simp [List.replicate], by omega, ?_⟩
    have hr := List.range'_append g b.length ((rest.map List.length).sum) 1
    simp only [one_mul] at hr
    rw [← List.map_append, hr]
    congr 2
    omega

/-- When every candidate before position `|pre|` is analysed successfully and
the candidate at that position raises, the dispatch loop stops there: the
outcome is the raised error, exactly `|pre| + 1` run identifiers were
dispatched, and the generation counter advanced by `|pre| + 1`. -/
theorem dispatchSamples_aborts {α ε : Type} (analyse : α → String → Except ε Unit) (uid : Int) :
    ∀ (pre : List α) (bad : α) (post : List α) (g : Nat) (e : ε),
      (∀ (i : Nat) (hi : i < pre.length),
        analyse (pre.get ⟨i, hi⟩) (mkRunId uid (g + i)) = .ok ()) →
      analyse bad (mkRunId uid (g + pre.length)) = .error e →
      dispatchSamples analyse uid (pre ++ bad :: post) g =
        (.error e, g + pre.length + 1, (List.range' g (pre.length + 1)).map (mkRunId uid)) := by
  intro pre
  induction pre with
  | nil =>
    intro bad post g e _ hbad
    simp only [List.length_nil, Nat.add_zero] at hbad
    simp only [List.nil_append, dispatchSamples, hbad]
    rfl
  | cons a pre ih =>
    intro bad post g e hpre hbad
    have ha : analyse a (mkRunId uid g) = .ok () := by
      have := hpre 0 (by simp)
      simpa using this
    simp only [List.cons_append, dispatchSamples, ha]
    have hpre' : ∀ (i : Nat) (hi : i < pre.length),
        analyse (pre.get ⟨i, hi⟩) (mkRunId uid (g + 1 + i)) = .ok () := by
      intro i hi
      have := hpre (i + 1) (by simp; omega)
      have harg : g + (i + 1) = g + 1 + i := by omega
      rw [harg] at this
      simpa using this
    have hbad' : analyse bad (mkRunId uid (g + 1 + pre.length)) = .error e := by
      have harg : g + (a :: pre).length = g + 1 + pre.length := by simp; omega
      rw [harg] at hbad
      exact hbad
    simp only [List.append_eq]
    rw [ih bad post (g + 1) e hpre' hbad']
    simp only [List.length_cons, Prod.mk.injEq]
    refine ⟨trivial, by omega, ?_⟩
    rw [show List.range' g (pre.length + 1 + 1) = g :: List.range' (g + 1) (pre.length + 1)
      from rfl]
    simp

/-! ## Concrete fixtures for witnesses and counterexamples -/

/-- An environment where provisioning fully succeeds. -/
def envReady : Env :=
  { hasDocker := true, hasPodman := true, containerExists := false,
    buildExit := 0, createExit := 0, startExit := 0, removeExit := 0 }

/-- An environment where both engines answer but the build command and the
unchecked create/start/remove commands all exit non-zero. -/
def envBuildFail : Env :=
  { hasDocker := true, hasPodman := true, containerExists := true,
    buildExit := 1, createExit := 2, startExit := 3, removeExit := 4 }

/-- A valid evaluation entry point: a regular `.py` file that exists. -/
def goodEvalInfo : PathInfo := { isFile := true, suffix := ".py", pathExists := true }

/-- An invalid evaluation entry point: a regular file with suffix `.txt`. -/
def txtEvalInfo : PathInfo := { isFile := true, suffix := ".txt", pathExists := true }

/-- Constructor arguments that pass validation, no setup script. -/
def goodArgs : InitArgs := { evalInfo := goodEvalInfo, setupInfo := none, forceRebuild := false }

/-- Constructor arguments whose evaluation entry point has extension `.txt`. -/
def txtArgs : InitArgs := { evalInfo := txtEvalInfo, setupInfo := none, forceRebuild := false }

/-- An analyse oracle that raises exactly on the first run identifier
`"0_0"` dispatched by a uid-0 sampler. -/
def analyseFailFirst : String → String → Except Unit Unit := fun _ id =>
  if id = "0_0" then .error () else .ok ()

/-! ## Claim theorems -/

/-- Claim C1: For every sequence of sandbox instantiations within one process,
only the instance assigned identifier 0 performs the provisioning side
effects (container remove, image build, container create, container
start); every instance with a nonzero identifier returns from construction
without performing any provisioning step (indeed without issuing any shell
interaction at all). -/
theorem claim1_provisioning_only_instance_zero (env : Env) (args : List InitArgs)
    (rec : InitRecord) (hmem : rec ∈ (initTrace env args processStart).1) :
    (rec.assignedId ≠ 0 → rec.effects = []) ∧
    (rec.effects.filter isProvisioningStep ≠ [] → rec.assignedId = 0) := by
  have h := initTrace_ids_effects env args processStart rec hmem
  refine ⟨h.2, fun hne => ?_⟩
  by_contra hz
  rw [h.2 hz] at hne
  simp at hne

/-- Witness for C1: in a two-instantiation trace in a ready environment,
the second record got identifier 1 and an empty effect trace. -/
theorem claim1_provisioning_only_instance_zero_witness :
    ((⟨1, .ok 1, []⟩ : InitRecord) ∈ (initTrace envReady [goodArgs, goodArgs] processStart).1) ∧
    (((⟨1, .ok 1, []⟩ : InitRecord).assignedId ≠ 0 → (⟨1, .ok 1, []⟩ : InitRecord).effects = []) ∧
      ((⟨1, .ok 1, []⟩ : InitRecord).effects.filter isProvisioningStep ≠ [] →
        (⟨1, .ok 1, []⟩ : InitRecord).assignedId = 0)) :=
  ⟨by decide, claim1_provisioning_only_instance_zero envReady [goodArgs, goodArgs]
    ⟨1, .ok 1, []⟩ (by decide)⟩

/-- Claim C5: construction whose evaluation entry point is not a regular `.py`
file, or whose given setup script is not a shell-script file, raises a
`ValueError` (the spec's ConfigurationError) and issues no shell command. -/
theorem claim5_validation_fails_before_shell (env : Env) (st : ClassState) (a : InitArgs)
    (hbad : ¬(a.evalInfo.isFile = true ∧ a.evalInfo.suffix = ".py") ∨
      (∃ si, a.setupInfo = some si ∧ ¬(si.isFile = true ∧ si.suffix = ".sh"))) :
    (∃ e, (containerSandboxInit env st a).1 = .error e ∧ isConfigurationError e = true) ∧
    (containerSandboxInit env st a).2.2 = [] := by
  have hv : ∃ e, validateArgs a = .error e ∧ isConfigurationError e = true := by
    cases hsetup : a.setupInfo with
    | none =>
      rcases hbad with hbad | ⟨si, hsi, _⟩
      · refine ⟨.evalNotPythonFile, ?_, rfl⟩
        unfold validateArgs
        rw [hsetup]
        unfold validateEval
        rw [if_pos (by tauto)]
      · rw [hsetup] at hsi
        exact absurd hsi (by simp)
    | some si =>
      have hva : validateArgs a =
          if ¬ si.isFile = true ∨ si.suffix ≠ ".sh" then Except.error InitError.setupNotShellScript
          else validateEval a.evalInfo := by
        unfold validateArgs
        rw [hsetup]
      by_cases hgood : si.isFile = true ∧ si.suffix = ".sh"
      · rcases hbad with hbad | ⟨si', hsi', hbad'⟩
        · refine ⟨.evalNotPythonFile, ?_, rfl⟩
          rw [hva, if_neg (by tauto)]
          unfold validateEval
          rw [if_pos (by tauto)]
        · rw [hsetup] at hsi'
          have : si = si' := by injection hsi'
          rw [← this] at hbad'
          exact absurd hgood hbad'
      · refine ⟨.setupNotShellScript, ?_, rfl⟩
        rw [hva, if_pos (by tauto)]
  obtain ⟨e, hve, hce⟩ := hv
  have h := containerSandboxInit_effects_of_validation_error env st a e hve
  exact ⟨⟨e, h.2, hce⟩, h.1⟩

/-- Witness for C5: a `.txt` evaluation entry point fails with a
configuration error and an empty effect trace. -/
theorem claim5_validation_fails_before_shell_witness :
    (¬(txtArgs.evalInfo.isFile = true ∧ txtArgs.evalInfo.suffix = ".py") ∨
      (∃ si, txtArgs.setupInfo = some si ∧ ¬(si.isFile = true ∧ si.suffix = ".sh"))) ∧
    ((∃ e, (containerSandboxInit envReady processStart txtArgs).1 = .error e ∧
        isConfigurationError e = true) ∧
      (containerSandboxInit envReady processStart txtArgs).2.2 = []) :=
  ⟨Or.inl (by decide), claim5_validation_fails_before_shell envReady processStart txtArgs
    (Or.inl (by decide))⟩

/-- Claim C9: a non-zero exit of the image-build command raises a `RuntimeError`
whose message names the image, while the create, start and remove commands
never raise regardless of their exit statuses. -/
theorem claim9_only_build_exit_checked (env : Env) (st : ClassState)
    (heng : env.hasDocker = true ∨ env.hasPodman = true) (hbuild : env.buildExit ≠ 0) :
    ((buildImage env st).1 = .error (.buildFailed buildErrorMessage) ∧
      ∃ before after, buildErrorMessage = before ++ SANDBOX_IMAGE_NAME ++ after) ∧
    ∀ env' : Env, (createContainer env').1 = .ok () ∧ (startContainer env').1 = .ok () ∧
      (removeContainer env').1 = .ok () := by
  refine ⟨⟨?_, "Failed to build the container image ",
    ". Please check the Dockerfile and the build context.", rfl⟩, ?_⟩
  · unfold buildImage selectEngine hasEngine
    by_cases hd : env.hasDocker = true
    · simp [hd, hbuild]
    · have hp : env.hasPodman = true := by tauto
      simp [hd, hp, hbuild]
  · intro env'
    refine ⟨rfl, rfl, ?_⟩
    unfold removeContainer
    split <;> rfl

/-- Witness for C9: a build exiting 1 raises the naming error even while
create/start/remove exit 2, 3 and 4 unchecked. -/
theorem claim9_only_build_exit_checked_witness :
    (envBuildFail.hasDocker = true ∨ envBuildFail.hasPodman = true) ∧
    envBuildFail.buildExit ≠ 0 ∧
    (((buildImage envBuildFail processStart).1 = .error (.buildFailed buildErrorMessage) ∧
        ∃ before after, buildErrorMessage = before ++ SANDBOX_IMAGE_NAME ++ after) ∧
      ∀ env' : Env, (createContainer env').1 = .ok () ∧ (startContainer env').1 = .ok () ∧
        (removeContainer env').1 = .ok ()) :=
  ⟨Or.inl rfl, by decide,
    claim9_only_build_exit_checked envBuildFail processStart (Or.inl rfl) (by decide)⟩

/-- Claim C10: `super().__init__()` consumes the next identifier before input
validation runs, so even a construction failing validation increments the
process-wide counter; consequently, when the first construction in a
process raises a validation error, every later construction receives a
nonzero identifier and no instance in the whole trace performs any
provisioning step. -/
theorem claim10_failed_first_validation_blocks_provisioning (env : Env) (a : InitArgs)
    (args : List InitArgs) (e : InitError)
    (hfail : (containerSandboxInit env processStart a).1 = .error e)
    (hval : isValidationError e = true) :
    (∀ (env' : Env) (st' : ClassState) (a' : InitArgs),
      (containerSandboxInit env' st' a').2.1.sandboxes = st'.sandboxes + 1) ∧
    (∀ rec ∈ ((initTrace env (a :: args) processStart).1).tail, rec.assignedId ≠ 0) ∧
    (∀ rec ∈ (initTrace env (a :: args) processStart).1,
      rec.effects.filter isProvisioningStep = []) := by
  have hvsrc := containerSandboxInit_validation_source env processStart a e hfail hval
  have hcount := containerSandboxInit_sandboxes env processStart a
  refine ⟨fun env' st' a' => containerSandboxInit_sandboxes env' st' a', ?_, ?_⟩
  · intro rec hrec
    simp only [initTrace, List.tail_cons] at hrec
    have h := initTrace_ids_effects env args (containerSandboxInit env processStart a).2.1
      rec hrec
    have h1 : (containerSandboxInit env processStart a).2.1.sandboxes = 1 := by
      rw [hcount]
      rfl
    omega
  · intro rec hrec
    simp only [initTrace, List.mem_cons] at hrec
    rcases hrec with hrec | hrec
    · have heff := containerSandboxInit_effects_of_validation_error env processStart a e hvsrc
      rw [hrec]
      simp [heff.1]
    · have h := initTrace_ids_effects env args (containerSandboxInit env processStart a).2.1
        rec hrec
      have h1 : (containerSandboxInit env processStart a).2.1.sandboxes = 1 := by
        rw [hcount]
        rfl
      have : rec.effects = [] := h.2 (by omega)
      simp [this]

/-- Witness for C10: the first construction fails on a `.txt` entry point;
the trace with one further construction shows nonzero identifiers and no
provisioning anywhere. -/
theorem claim10_failed_first_validation_blocks_provisioning_witness :
    ((containerSandboxInit envReady processStart txtArgs).1 = .error .evalNotPythonFile) ∧
    (isValidationError .evalNotPythonFile = true) ∧
    ((∀ (env' : Env) (st' : ClassState) (a' : InitArgs),
        (containerSandboxInit env' st' a').2.1.sandboxes = st'.sandboxes + 1) ∧
      (∀ rec ∈ ((initTrace envReady (txtArgs :: [goodArgs]) processStart).1).tail,
        rec.assignedId ≠ 0) ∧
      (∀ rec ∈ (initTrace envReady (txtArgs :: [goodArgs]) processStart).1,
        rec.effects.filter isProvisioningStep = [])) :=
  ⟨by decide, by decide,
    claim10_failed_first_validation_blocks_provisioning envReady txtArgs [goodArgs]
      .evalNotPythonFile (by decide) (by decide)⟩

/-- Claim C3, counterexample: with both engines available, the second of two
consecutive `select_engine()` calls runs its own probe (version command)
again — the pinned engine is never consulted, so the two calls perform two
probe sequences, not at most one. -/
theorem claim3_counterexample :
    (selectEngine envReady processStart).2.2 = [Effect.probeEngine .docker] ∧
    (selectEngine envReady ((selectEngine envReady processStart).2.1)).2.2 =
      [Effect.probeEngine .docker] ∧
    (selectEngine envReady ((selectEngine envReady processStart).2.1)).2.2 ≠ [] := by
  refine ⟨by decide, by decide, by decide⟩

/-- Claim C3, amended: `select_engine` is deterministic — a second consecutive
call returns the same engine, the same effects, and leaves the class state
unchanged — but each call performs its own probe sequence; the cached
`cls.engine` is never used to skip probing. -/
theorem claim3_select_engine_deterministic_but_reprobes (env : Env) (st : ClassState) :
    selectEngine env ((selectEngine env st).2.1) = selectEngine env st ∧
    (selectEngine env st).2.2 ≠ [] := by
  unfold selectEngine
  by_cases hd : hasEngine env .docker
  · simp [hd]
  · by_cases hp : hasEngine env .podman
    · simp [hd, hp]
    · simp [hd, hp]

/-- Claim C2, counterexample: in a two-candidate batch where the first
dispatched `analyse` raises, the second candidate is never dispatched —
only one run identifier is issued for a batch of two, and the exception
escapes `sample()`. -/
theorem claim2_counterexample :
    (sample analyseFailFirst 0 ["a", "b"] 0).2.2 = ["0_0"] ∧
    (["a", "b"] : List String).length = 2 ∧
    (sample analyseFailFirst 0 ["a", "b"] 0).1 = .error (.analyseError ()) := by
  refine ⟨by decide, rfl, by decide⟩

/-- Claim C2, amended: the dispatch loop has no per-candidate exception
isolation: when the candidates before position `|pre|` are analysed
successfully and the one at that position raises, `sample()` propagates the
exception, and exactly the first `|pre| + 1` candidates were dispatched —
the remaining candidates of the batch are not. -/
theorem claim2_analyse_error_aborts_batch {α ε : Type}
    (analyse : α → String → Except ε Unit) (uid : Int)
    (pre : List α) (bad : α) (post : List α) (g : Nat) (e : ε)
    (hpre : ∀ (i : Nat) (hi : i < pre.length),
      analyse (pre.get ⟨i, hi⟩) (mkRunId uid (g + i)) = .ok ())
    (hbad : analyse bad (mkRunId uid (g + pre.length)) = .error e) :
    sample analyse uid (pre ++ bad :: post) g =
      (.error (.analyseError e), g + pre.length + 1,
        (List.range' g (pre.length + 1)).map (mkRunId uid)) := by
  unfold sample
  rw [dispatchSamples_aborts analyse uid pre bad post g e hpre hbad]

/-- Witness for the amended C2: a batch whose first candidate raises
dispatches only that candidate and aborts. -/
theorem claim2_analyse_error_aborts_batch_witness :
    ((fun (_ : String) (_ : String) => (.error () : Except Unit Unit)) "x" (mkRunId 0 (0 + 0))
      = .error ()) ∧
    sample (fun (_ : String) (_ : String) => (.error () : Except Unit Unit)) 0
        (([] : List String) ++ "x" :: ["y"]) 0 =
      (.error (.analyseError ()), 0 + ([] : List String).length + 1,
        (List.range' 0 (([] : List String).length + 1)).map (mkRunId 0)) :=
  ⟨rfl, claim2_analyse_error_aborts_batch (fun _ _ => .error ()) 0 [] "x" ["y"] 0 ()
    (fun i hi => absurd hi (by simp)) rfl⟩

/-- Claim C4: `run` does not intercept deserialization: when the copy out of the
container yields an empty output file, `run` fails with `EOFError` (the
spec's ResultUnavailableError), and when the file has content that fails
to deserialize, with `UnpicklingError` (the spec's CorruptResultError) —
two distinct exception types the caller can tell apart. -/
theorem claim4_result_errors_distinguishable {β : Type} (decode : List Nat → Option β)
    (env : RunEnv) (implementationId : String) (testId : Int) :
    (env.copiedBytes = [] →
      (run decode env implementationId testId).1 = .error .eofError) ∧
    (env.copiedBytes ≠ [] → decode env.copiedBytes = none →
      (run decode env implementationId testId).1 = .error .unpicklingError) ∧
    PickleError.eofError ≠ PickleError.unpicklingError := by
  refine ⟨?_, ?_, by decide⟩
  · intro h
    simp [run, execute, pickleLoad, h]
  · intro h hdec
    simp [run, execute, pickleLoad, h, hdec]

/-- Witness for C4: an empty copied file gives `EOFError`, a nonempty
undecodable one gives `UnpicklingError`. -/
theorem claim4_result_errors_distinguishable_witness :
    (run (fun _ => (none : Option Nat)) ⟨0, 0, []⟩ "impl" 0).1 = .error .eofError ∧
    (run (fun _ => (none : Option Nat)) ⟨0, 0, [1]⟩ "impl" 0).1 = .error .unpicklingError ∧
    PickleError.eofError ≠ PickleError.unpicklingError :=
  ⟨(claim4_result_errors_distinguishable (fun _ => (none : Option Nat)) ⟨0, 0, []⟩
      "impl" 0).1 rfl,
    ((claim4_result_errors_distinguishable (fun _ => (none : Option Nat)) ⟨0, 0, [1]⟩
      "impl" 0).2.1 (by simp) rfl),
    (claim4_result_errors_distinguishable (fun _ => (none : Option Nat)) ⟨0, 0, []⟩
      "impl" 0).2.2⟩

/-- Claim C6: over N `sample()` calls of one orchestrator, each dispatching a
batch of B candidates (all analyse calls succeeding), the run identifiers
are exactly `str(uid) ++ "_" ++ str(k)` for `k = 0 .. N*B - 1` in dispatch
order, they are pairwise distinct, the generation counter ends at `N*B`
(one increment per candidate, never reset), and every call succeeds. -/
theorem claim6_run_identifiers_enumerate {α ε : Type}
    (analyse : α → String → Except ε Unit) (uid : Int) (N B : Nat)
    (batches : List (List α)) (hN : batches.length = N)
    (hB : ∀ b ∈ batches, b.length = B) (hpos : 0 < B)
    (hok : ∀ s id, analyse s id = .ok ()) :
    (sampleSeq analyse uid batches 0).2.2 = (List.range (N * B)).map (mkRunId uid) ∧
    (sampleSeq analyse uid batches 0).2.2.Nodup ∧
    (sampleSeq analyse uid batches 0).2.1 = N * B ∧
    (∀ r ∈ (sampleSeq analyse uid batches 0).1, r = .ok ()) := by
  have hne : ∀ b ∈ batches, b ≠ [] := by
    intro b hb hnil
    have := hB b hb
    rw [hnil] at this
    simp at this
    omega
  have hmap : batches.map List.length = List.replicate N B := by
    apply List.eq_replicate_iff.2
    constructor
    · simp [hN]
    · intro x hx
      rw [List.mem_map] at hx
      obtain ⟨b, hb, rfl⟩ := hx
      exact hB b hb
  have hsum : (batches.map List.length).sum = N * B := by
    rw [hmap]
    simp [List.sum_replicate, smul_eq_mul]
  have hseq := sampleSeq_all_ok analyse uid hok batches 0 hne
  rw [hseq, hsum]
  refine ⟨?_, ?_, by simp, ?_⟩
  · rw [show (0 : Nat) + N * B = N * B from by omega, List.range_eq_range']
  · exact ((List.nodup_range' 0 (N * B)).map (mkRunId_injective uid))
  · intro r hr
    exact List.eq_of_mem_replicate hr

/-- Witness for C6: two singleton batches under an always-succeeding
analyse give ids `["0_0", "0_1"]`-shaped enumeration facts. -/
theorem claim6_run_identifiers_enumerate_witness :
    (([[()], [()]] : List (List Unit)).length = 2) ∧
    (∀ b ∈ ([[()], [()]] : List (List Unit)), b.length = 1) ∧ (0 < 1) ∧
    ((sampleSeq (fun (_ : Unit) (_ : String) => (.ok () : Except Unit Unit)) 0
        [[()], [()]] 0).2.2 = (List.range (2 * 1)).map (mkRunId 0) ∧
      (sampleSeq (fun (_ : Unit) (_ : String) => (.ok () : Except Unit Unit)) 0
        [[()], [()]] 0).2.2.Nodup ∧
      (sampleSeq (fun (_ : Unit) (_ : String) => (.ok () : Except Unit Unit)) 0
        [[()], [()]] 0).2.1 = 2 * 1 ∧
      (∀ r ∈ (sampleSeq (fun (_ : Unit) (_ : String) => (.ok () : Except Unit Unit)) 0
        [[()], [()]] 0).1, r = .ok ())) :=
  ⟨rfl, by decide, by decide,
    claim6_run_identifiers_enumerate (fun _ _ => .ok ()) 0 2 1 [[()], [()]] rfl
      (by decide) (by decide) (fun _ _ => rfl)⟩

/-- Claim C7: `upload_test_cases` removes its host staging directory on success
and on failure alike, and an exception raised while staging is logged and
re-raised to the caller, not swallowed. -/
theorem claim7_upload_always_cleans_up {α ε : Type} (serialize : α → Except ε Unit)
    (cases : List α) :
    (uploadTestCases serialize cases).tempDirRemoved = true ∧
    (∀ e, stageCases serialize cases = .error e →
      (uploadTestCases serialize cases).result = .error e ∧
      (uploadTestCases serialize cases).loggedError = some e) := by
  unfold uploadTestCases
  cases hs : stageCases serialize cases with
  | error e =>
    refine ⟨rfl, fun e' he' => ?_⟩
    injection he' with h
    subst h
    exact ⟨rfl, rfl⟩
  | ok u =>
    cases u
    refine ⟨rfl, fun e' he' => ?_⟩
    exact absurd he' (by simp)

/-- Witness for C7: a failing serializer still sees the staging directory
removed, and its error is both logged and re-raised. -/
theorem claim7_upload_always_cleans_up_witness :
    (stageCases (fun (_ : Unit) => (.error 3 : Except Nat Unit)) [()] = .error 3) ∧
    ((uploadTestCases (fun (_ : Unit) => (.error 3 : Except Nat Unit)) [()]).tempDirRemoved
      = true) ∧
    ((uploadTestCases (fun (_ : Unit) => (.error 3 : Except Nat Unit)) [()]).result
      = .error 3) ∧
    ((uploadTestCases (fun (_ : Unit) => (.error 3 : Except Nat Unit)) [()]).loggedError
      = some 3) :=
  ⟨rfl,
    (claim7_upload_always_cleans_up (fun _ => .error 3) [()]).1,
    ((claim7_upload_always_cleans_up (fun _ => .error 3) [()]).2 3 rfl).1,
    ((claim7_upload_always_cleans_up (fun _ => .error 3) [()]).2 3 rfl).2⟩

/-- Claim C8, counterexample: output paths are pathlib posix paths, so the
distinct pairs `("a//b", 0)` and `("a/b", 0)` alias to the same normalized
output path — the claim's universal collision-freedom fails. -/
theorem claim8_counterexample :
    (executePaths "a//b" 0).2.1 = (executePaths "a/b" 0).2.1 ∧
    ("a//b" : String) ≠ "a/b" := by
  refine ⟨by decide, by decide⟩

/-- Claim C8, amended: `execute` computes its three paths deterministically —
the input path from the test id alone — and on implementation ids that are
single path components (no `/`, nonempty, not `"."`) the output path is
collision-free: equal output paths force equal pairs.  Ids containing path
separators can alias after pathlib normalization. -/
theorem claim8_paths_deterministic_and_injective (i₁ i₂ : String) (t₁ t₂ : Int)
    (hs₁ : ∀ c ∈ i₁.data, c ≠ '/') (hne₁ : i₁ ≠ "") (hnd₁ : i₁ ≠ ".")
    (hs₂ : ∀ c ∈ i₂.data, c ≠ '/') (hne₂ : i₂ ≠ "") (hnd₂ : i₂ ≠ ".")
    (hout : (executePaths i₁ t₁).2.1 = (executePaths i₂ t₂).2.1) :
    (∀ (j₁ j₂ : String) (t : Int), (executePaths j₁ t).1 = (executePaths j₂ t).1) ∧
    (i₁ = i₂ ∧ t₁ = t₂) :=
  ⟨fun _ _ _ => rfl,
    executePaths_output_injOn i₁ i₂ t₁ t₂ hs₁ hne₁ hnd₁ hs₂ hne₂ hnd₂ hout⟩

/-- Witness for the amended C8: the single-component id `"impl"` with test
id 0 satisfies all hypotheses reflexively. -/
theorem claim8_paths_deterministic_and_injective_witness :
    (∀ c ∈ ("impl" : String).data, c ≠ '/') ∧ ("impl" : String) ≠ "" ∧
    ("impl" : String) ≠ "." ∧
    (executePaths "impl" 0).2.1 = (executePaths "impl" 0).2.1 ∧
    ((∀ (j₁ j₂ : String) (t : Int), (executePaths j₁ t).1 = (executePaths j₂ t).1) ∧
      (("impl" : String) = "impl" ∧ (0 : Int) = 0)) :=
  ⟨by decide, by decide, by decide, rfl,
    claim8_paths_deterministic_and_injective "impl" "impl" 0 0
      (by decide) (by decide) (by decide) (by decide) (by decide) (by decide) rfl⟩

end OpenEvolve
